import Mathlib

/-!
Shallow embedding of the packet framing decoder of
`src/examples/usb_glove_data.py` (class `OGlove`): the byte-at-a-time
state machine `on_data`, the XOR checksum `calc_lrc`, and the blocking
read routine `get_data` (its validation step and its polling loop, the
latter driven by an explicit schedule of byte batches and clock values).

Python `bytearray` element assignment is modelled by `baSet`, which
returns `none` exactly when CPython would raise (index out of the
`[-len, len)` range, or value not a byte); `on_data` therefore returns
`Option OGlove`, with `none` meaning an uncaught exception.
-/

namespace GForce

def MAX_PROTOCOL_DATA_SIZE : Nat := 64

/-- Protocol states (module-level constants of the source). -/
def WAIT_ON_HEADER_0 : Nat := 0

def WAIT_ON_HEADER_1 : Nat := 1

def WAIT_ON_BYTE_COUNT : Nat := 2

def WAIT_ON_DATA : Nat := 3

def WAIT_ON_LRC : Nat := 4

def DATA_CNT_BYTE_NUM : Nat := 0

def DATA_START_BYTE_NUM : Nat := 1

/-- The decoder context: the fields of `OGlove.__init__` that the decoding
core reads or writes (`serial_port`, `timeout` and `send_buf` are not part
of the decoding state; the byte source and the timeout are passed to the
loop model explicitly).  `byte_count` is a Python `int`, hence `Int`. -/
structure OGlove where
  is_whole_packet : Bool
  decode_state : Nat
  packet_data : List Nat
  byte_count : Int
deriving Repr, DecidableEq

/-- `OGlove.__init__`: `packet_data = bytearray(MAX_PROTOCOL_DATA_SIZE + 2)`. -/
def OGlove.mkInit : OGlove :=
  { is_whole_packet := false
    decode_state := WAIT_ON_HEADER_0
    packet_data := List.replicate (MAX_PROTOCOL_DATA_SIZE + 2) 0
    byte_count := 0 }

/-- CPython `bytearray` element assignment `ba[i] = v`: a negative index is
taken from the end; an index outside `[-len, len)` raises `IndexError`; a
value outside `0..255` raises `ValueError`.  `none` models the raise. -/
def baSet (ba : List Nat) (i : Int) (v : Nat) : Option (List Nat) :=
  let j : Int := if i < 0 then i + ba.length else i
  if 0 ≤ j ∧ j < ba.length ∧ v < 256 then some (ba.set j.toNat v) else none

/-- `OGlove.calc_lrc(lrcBytes, lrcByteCount)`: XOR-fold of the first
`lrcByteCount` bytes. -/
def calc_lrc (lrcBytes : List Nat) (lrcByteCount : Nat) : Nat :=
  (List.range lrcByteCount).foldl (fun lrc i => lrc ^^^ lrcBytes.getD i 0) 0

/-- `OGlove.on_data(data)`: one step of the decode state machine. -/
def OGlove.on_data (g : OGlove) (data : Nat) : Option OGlove :=
  if g.is_whole_packet then
    some g
  else if g.decode_state = WAIT_ON_HEADER_0 then
    if data = 0x55 then some { g with decode_state := WAIT_ON_HEADER_1 } else some g
  else if g.decode_state = WAIT_ON_HEADER_1 then
    some { g with decode_state :=
      if data = 0xAA then WAIT_ON_BYTE_COUNT else WAIT_ON_HEADER_0 }
  else if g.decode_state = WAIT_ON_BYTE_COUNT then
    (baSet g.packet_data (DATA_CNT_BYTE_NUM : Int) data).map fun pd =>
      if (data : Int) > (MAX_PROTOCOL_DATA_SIZE : Int) then
        { g with packet_data := pd, byte_count := (data : Int),
                 decode_state := WAIT_ON_HEADER_0 }
      else if (data : Int) > 0 then
        { g with packet_data := pd, byte_count := (data : Int),
                 decode_state := WAIT_ON_DATA }
      else
        { g with packet_data := pd, byte_count := (data : Int),
                 decode_state := WAIT_ON_LRC }
  else if g.decode_state = WAIT_ON_DATA then
    (baSet g.packet_data
        ((DATA_START_BYTE_NUM : Int)
          + (g.packet_data.getD DATA_CNT_BYTE_NUM 0 : Int) - g.byte_count) data).map
      fun pd =>
        { g with packet_data := pd, byte_count := g.byte_count - 1,
                 decode_state :=
                   if g.byte_count - 1 = 0 then WAIT_ON_LRC else g.decode_state }
  else if g.decode_state = WAIT_ON_LRC then
    (baSet g.packet_data
        ((DATA_START_BYTE_NUM : Int)
          + (g.packet_data.getD DATA_CNT_BYTE_NUM 0 : Int)) data).map
      fun pd =>
        { g with packet_data := pd, is_whole_packet := true,
                 decode_state := WAIT_ON_HEADER_0 }
  else
    some { g with decode_state := WAIT_ON_HEADER_0 }

/-- Feed a list of bytes one at a time (`for ch in data_bytes: self.on_data(ch)`),
propagating an exception as `none`. -/
def feedAll (g : OGlove) (bs : List Nat) : Option OGlove :=
  match bs with
  | [] => some g
  | b :: rest => (g.on_data b).bind fun gNext => feedAll gNext rest

/-- The tail of `OGlove.get_data` after the waiting loop: LRC validation and
payload copy-out.  `resp_bytes = none` models passing `None`; `some buf`
models a caller bytearray holding `buf`, which `get_data` clears and refills
with the payload slice on success.  Result: (decoder, resp_bytes, return). -/
def OGlove.get_data_validate (g : OGlove) (resp_bytes : Option (List Nat)) :
    OGlove × Option (List Nat) × Bool :=
  let cnt := g.packet_data.getD DATA_CNT_BYTE_NUM 0
  let lrc := calc_lrc g.packet_data (cnt + 1)
  if lrc ≠ g.packet_data.getD (DATA_START_BYTE_NUM + cnt) 0 then
    ({ g with is_whole_packet := false }, resp_bytes, false)
  else
    (({ g with is_whole_packet := false },
      match resp_bytes with
      | none => none
      | some _ => some ((g.packet_data.drop DATA_START_BYTE_NUM).take cnt),
      true))

/-- The waiting loop of `OGlove.get_data`, driven by an explicit schedule:
each entry `(bs, now)` is one outer iteration delivering the batch `bs`
from the serial port, with `time.time()` reading `now` at the deadline
check.  `deadline` is `wait_start + self.timeout / 1000`.  `none` means the
run is not resolved within the schedule (or an exception occurred). -/
def OGlove.run_get_data (g : OGlove) (resp_bytes : Option (List Nat))
    (deadline : Nat) (sched : List (List Nat × Nat)) :
    Option (OGlove × Option (List Nat) × Bool) :=
  if g.is_whole_packet then
    some (g.get_data_validate resp_bytes)
  else
    match sched with
    | [] => none
    | (bs, now) :: rest =>
      (feedAll g bs).bind fun gNext =>
        if ¬ gNext.is_whole_packet ∧ deadline < now then
          some ({ gNext with decode_state := WAIT_ON_HEADER_0 }, resp_bytes, false)
        else
          gNext.run_get_data resp_bytes deadline rest
termination_by sched.length
decreasing_by simp_wf

/-!
Reference predicate for the completion-flag characterization, written from
the spec's words (§8 first bullet together with §4.1's header-1 rule): scan
the byte sequence left to right for a contiguous run
`[0x55, 0xAA, LEN, LEN payload bytes, CHK]` with `LEN ≤ 64`; a byte that
fails the second-header check is dropped, not re-examined as a new header-0
candidate; an oversized length byte is likewise dropped and scanning
resumes; once a length `LEN ≤ 64` is accepted the next `LEN + 1` bytes are
committed to the frame, so the flag is set iff that many bytes remain.
-/

mutual

/-- Spec scanner, looking for the first header byte `0x55`. -/
def specScanH0 : List Nat → Bool
  | [] => false
  | b :: rest => if b = 0x55 then specScanH1 rest else specScanH0 rest

/-- Spec scanner, after `0x55`: `0xAA` continues a frame, anything else is
dropped and scanning restarts on the next byte. -/
def specScanH1 : List Nat → Bool
  | [] => false
  | b :: rest => if b = 0xAA then specScanLen rest else specScanH0 rest

/-- Spec scanner, after `0x55 0xAA`: a length `≤ 64` commits the next
`len + 1` bytes (payload and checksum) to the frame; an oversized length is
dropped and scanning restarts. -/
def specScanLen : List Nat → Bool
  | [] => false
  | len :: rest => if len ≤ 64 then decide (len + 1 ≤ rest.length) else specScanH0 rest

end

/-- XOR-fold of a whole list (spec §6: `checksum = XOR-fold(length, payload)`
is `lrcFold (length :: payload)`). -/
def lrcFold (l : List Nat) : Nat :=
  l.foldl (fun a b => a ^^^ b) 0

/-- A wire frame for a payload and an arbitrary trailing checksum byte. -/
def frameBytes (len : Nat) (payload : List Nat) (chk : Nat) : List Nat :=
  0x55 :: 0xAA :: len :: (payload ++ [chk])

/-- Overwrite `l` with the bytes of `vs`, starting at index `i`:
the cumulative effect of the `WAIT_ON_DATA` writes. -/
def setChunk : List Nat → Nat → List Nat → List Nat
  | l, _, [] => l
  | l, i, v :: vs => setChunk (l.set i v) (i + 1) vs

/-! ### List helper lemmas -/

theorem getD_set_self (l : List Nat) (i v d : Nat) (h : i < l.length) :
    (l.set i v).getD i d = v := by
  rw [List.getD_eq_getElem?_getD, List.getElem?_set_self h]
  rfl

theorem getD_set_ne (l : List Nat) (i j v d : Nat) (h : i ≠ j) :
    (l.set i v).getD j d = l.getD j d := by
  rw [List.getD_eq_getElem?_getD, List.getElem?_set_ne h, ← List.getD_eq_getElem?_getD]

theorem setChunk_eq (vs : List Nat) : ∀ (l : List Nat) (i : Nat),
    i + vs.length ≤ l.length →
    setChunk l i vs = l.take i ++ vs ++ l.drop (i + vs.length) := by
  induction vs with
  | nil =>
    intro l i h
    simp only [setChunk, List.length_nil, Nat.add_zero, List.nil_append,
      List.append_nil] at *
    exact (List.take_append_drop i l).symm
  | cons v vs ih =>
    intro l i h
    have hlc : (v :: vs).length = vs.length + 1 := List.length_cons v vs
    have hi : i < l.length := by rw [hlc] at h; omega
    have h2 : (i + 1) + vs.length ≤ (l.set i v).length := by
      rw [List.length_set]
      rw [hlc] at h
      omega
    rw [setChunk, ih (l.set i v) (i + 1) h2]
    have hset : l.set i v = (l.take i ++ [v]) ++ l.drop (i + 1) := by
      rw [List.set_eq_take_append_cons_drop, if_pos hi, List.append_assoc]
      rfl
    have hlen : (l.take i ++ [v]).length = i + 1 := by
      simp [List.length_take]
      omega
    have hdrop : (l.set i v).drop (i + 1 + vs.length) = l.drop (i + (v :: vs).length) := by
      rw [hset, show i + 1 + vs.length = (i + 1) + vs.length from rfl, ← List.drop_drop,
        List.drop_left' hlen, List.drop_drop, hlc]
      congr 1
      omega
    rw [hdrop, hset, List.take_left' hlen]
    simp [List.append_assoc]

theorem setChunk_length (vs : List Nat) : ∀ (l : List Nat) (i : Nat),
    (setChunk l i vs).length = l.length := by
  induction vs with
  | nil => intro l i; rfl
  | cons v vs ih => intro l i; rw [setChunk, ih, List.length_set]

theorem lrcFold_aux_lt (l : List Nat) : ∀ acc : Nat, acc < 256 →
    (∀ b ∈ l, b < 256) → l.foldl (fun a b => a ^^^ b) acc < 256 := by
  induction l with
  | nil => intro acc hacc _; exact hacc
  | cons x xs ih =>
    intro acc hacc hl
    refine ih (acc ^^^ x) ?_ (fun b hb => hl b (List.mem_cons_of_mem x hb))
    have hx : x < 256 := hl x (List.mem_cons_self x xs)
    have h8 : (256 : Nat) = 2 ^ 8 := rfl
    rw [h8] at hacc hx ⊢
    exact Nat.xor_lt_two_pow hacc hx

theorem lrcFold_lt (l : List Nat) (h : ∀ b ∈ l, b < 256) : lrcFold l < 256 :=
  lrcFold_aux_lt l 0 (by norm_num) h

theorem calc_lrc_eq_lrcFold_take (l : List Nat) :
    ∀ n : Nat, n ≤ l.length → calc_lrc l n = lrcFold (l.take n) := by
  intro n
  induction n with
  | zero => intro _; rfl
  | succ k ih =>
    intro h
    have hk : k < l.length := Nat.lt_of_succ_le h
    rw [calc_lrc, List.range_succ, List.foldl_append]
    rw [show (List.range k).foldl (fun lrc i => lrc ^^^ l.getD i 0) 0
        = calc_lrc l k from rfl, ih (Nat.le_of_lt hk)]
    rw [List.take_succ, List.getElem?_eq_getElem hk]
    simp only [lrcFold, List.foldl_append, Option.toList_some, List.foldl_cons,
      List.foldl_nil]
    rw [List.getD_eq_getElem?_getD, List.getElem?_eq_getElem hk]
    rfl

theorem baSet_eq_some (ba : List Nat) (i : Int) (v : Nat) (hi : 0 ≤ i)
    (hlt : i < (ba.length : Int)) (hv : v < 256) :
    baSet ba i v = some (ba.set i.toNat v) := by
  have h1 : ¬ i < 0 := not_lt.mpr hi
  simp only [baSet, h1, if_false]
  exact if_pos ⟨hi, hlt, hv⟩

/-! ### Step characterizations of `on_data`, one per decoder state -/

theorem on_data_whole (g : OGlove) (b : Nat) (hw : g.is_whole_packet = true) :
    g.on_data b = some g := by
  simp [OGlove.on_data, hw]

theorem on_data_h0_hit (g : OGlove) (hw : g.is_whole_packet = false)
    (hs : g.decode_state = WAIT_ON_HEADER_0) :
    g.on_data 0x55 = some { g with decode_state := WAIT_ON_HEADER_1 } := by
  simp [OGlove.on_data, hw, hs]

theorem on_data_h0_miss (g : OGlove) (b : Nat) (hw : g.is_whole_packet = false)
    (hs : g.decode_state = WAIT_ON_HEADER_0) (hb : b ≠ 0x55) :
    g.on_data b = some g := by
  simp [OGlove.on_data, hw, hs, hb]

theorem on_data_h1 (g : OGlove) (b : Nat) (hw : g.is_whole_packet = false)
    (hs : g.decode_state = WAIT_ON_HEADER_1) :
    g.on_data b = some { g with decode_state :=
      if b = 0xAA then WAIT_ON_BYTE_COUNT else WAIT_ON_HEADER_0 } := by
  simp [OGlove.on_data, hw, hs, WAIT_ON_HEADER_0, WAIT_ON_HEADER_1]

theorem on_data_count (g : OGlove) (b : Nat) (hw : g.is_whole_packet = false)
    (hs : g.decode_state = WAIT_ON_BYTE_COUNT) (hb : b < 256)
    (hl : 0 < g.packet_data.length) :
    g.on_data b = some { g with
      packet_data := g.packet_data.set 0 b
      byte_count := (b : Int)
      decode_state :=
        if 64 < b then WAIT_ON_HEADER_0
        else if 0 < b then WAIT_ON_DATA else WAIT_ON_LRC } := by
  have hba : baSet g.packet_data (DATA_CNT_BYTE_NUM : Int) b
      = some (g.packet_data.set 0 b) := by
    have h0 : ((DATA_CNT_BYTE_NUM : Nat) : Int) = (0 : Int) := rfl
    rw [h0]
    have := baSet_eq_some g.packet_data 0 b le_rfl (by exact_mod_cast hl) hb
    simpa using this
  have hgt : ((b : Int) > (MAX_PROTOCOL_DATA_SIZE : Int)) ↔ (64 < b) := by
    unfold MAX_PROTOCOL_DATA_SIZE
    omega
  have hpos : ((b : Int) > (0 : Int)) ↔ (0 < b) := by omega
  unfold OGlove.on_data
  rw [hw, hs]
  rw [if_neg (by decide), if_neg (by decide), if_neg (by decide), if_pos rfl, hba,
    Option.map_some']
  simp only [hgt, hpos]
  split_ifs <;> rfl

theorem on_data_payload (g : OGlove) (b c : Nat) (hw : g.is_whole_packet = false)
    (hs : g.decode_state = WAIT_ON_DATA) (hb : b < 256)
    (hl : g.packet_data.length = MAX_PROTOCOL_DATA_SIZE + 2)
    (hbc : g.byte_count = (c : Int)) (h1 : 1 ≤ c)
    (h2 : c ≤ g.packet_data.getD 0 0) (hL : g.packet_data.getD 0 0 ≤ 64) :
    g.on_data b = some { g with
      packet_data := g.packet_data.set (1 + g.packet_data.getD 0 0 - c) b
      byte_count := (c : Int) - 1
      decode_state := if c = 1 then WAIT_ON_LRC else WAIT_ON_DATA } := by
  have hidx : ((DATA_START_BYTE_NUM : Int)
      + (g.packet_data.getD DATA_CNT_BYTE_NUM 0 : Int) - (c : Int))
      = ((1 + g.packet_data.getD 0 0 - c : Nat) : Int) := by
    have h0 : (DATA_CNT_BYTE_NUM : Nat) = 0 := rfl
    have h1' : ((DATA_START_BYTE_NUM : Nat) : Int) = (1 : Int) := rfl
    rw [h0, h1']
    omega
  have hba : baSet g.packet_data ((DATA_START_BYTE_NUM : Int)
      + (g.packet_data.getD DATA_CNT_BYTE_NUM 0 : Int) - (c : Int)) b
      = some (g.packet_data.set (1 + g.packet_data.getD 0 0 - c) b) := by
    rw [hidx]
    have hlt : 1 + g.packet_data.getD 0 0 - c < MAX_PROTOCOL_DATA_SIZE + 2 := by
      unfold MAX_PROTOCOL_DATA_SIZE
      omega
    have := baSet_eq_some g.packet_data ((1 + g.packet_data.getD 0 0 - c : Nat) : Int) b
      (Int.natCast_nonneg _) (by rw [hl]; exact_mod_cast hlt) hb
    simpa using this
  have hc1 : ((c : Int) - 1 = 0) ↔ (c = 1) := by omega
  unfold OGlove.on_data
  rw [hw, hs]
  rw [if_neg (by decide), if_neg (by decide), if_neg (by decide),
    if_neg (by decide), if_pos rfl, hbc, hba, Option.map_some']
  simp only [hc1]

theorem on_data_lrc (g : OGlove) (b : Nat) (hw : g.is_whole_packet = false)
    (hs : g.decode_state = WAIT_ON_LRC) (hb : b < 256)
    (hl : g.packet_data.length = MAX_PROTOCOL_DATA_SIZE + 2)
    (hL : g.packet_data.getD 0 0 ≤ 64) :
    g.on_data b = some { g with
      packet_data := g.packet_data.set (1 + g.packet_data.getD 0 0) b
      is_whole_packet := true
      decode_state := WAIT_ON_HEADER_0 } := by
  have hidx : ((DATA_START_BYTE_NUM : Int)
      + (g.packet_data.getD DATA_CNT_BYTE_NUM 0 : Int))
      = ((1 + g.packet_data.getD 0 0 : Nat) : Int) := by
    have h0 : (DATA_CNT_BYTE_NUM : Nat) = 0 := rfl
    have h1' : ((DATA_START_BYTE_NUM : Nat) : Int) = (1 : Int) := rfl
    rw [h0, h1']
    omega
  have hba : baSet g.packet_data ((DATA_START_BYTE_NUM : Int)
      + (g.packet_data.getD DATA_CNT_BYTE_NUM 0 : Int)) b
      = some (g.packet_data.set (1 + g.packet_data.getD 0 0) b) := by
    rw [hidx]
    have hlt : 1 + g.packet_data.getD 0 0 < MAX_PROTOCOL_DATA_SIZE + 2 := by
      unfold MAX_PROTOCOL_DATA_SIZE
      omega
    have := baSet_eq_some g.packet_data ((1 + g.packet_data.getD 0 0 : Nat) : Int) b
      (Int.natCast_nonneg _) (by rw [hl]; exact_mod_cast hlt) hb
    simpa using this
  unfold OGlove.on_data
  rw [hw, hs]
  rw [if_neg (by decide), if_neg (by decide), if_neg (by decide),
    if_neg (by decide), if_neg (by decide), if_pos rfl, hba, Option.map_some']

/-! ### The reachable-state invariant -/

/-- States the decoder can actually be in: `decode_state` is one of the five
protocol states; while waiting on payload bytes the remaining count is
between 1 and the stored length byte, which is at most 64; while waiting on
the LRC the stored length byte is at most 64. -/
def Inv (g : OGlove) : Prop :=
  g.packet_data.length = MAX_PROTOCOL_DATA_SIZE + 2 ∧
  g.decode_state < 5 ∧
  (g.decode_state = WAIT_ON_DATA →
    1 ≤ g.byte_count ∧ g.byte_count ≤ (g.packet_data.getD 0 0 : Int) ∧
    g.packet_data.getD 0 0 ≤ 64) ∧
  (g.decode_state = WAIT_ON_LRC → g.packet_data.getD 0 0 ≤ 64)

theorem Inv_mkInit : Inv OGlove.mkInit := by
  refine ⟨by simp [OGlove.mkInit], by decide, ?_, ?_⟩ <;>
    exact fun h => absurd h (by decide)

/-- A decoder state produced from a fresh decoder by some byte stream. -/
def Reachable (g : OGlove) : Prop :=
  ∃ bs : List Nat, (∀ b ∈ bs, b < 256) ∧ feedAll OGlove.mkInit bs = some g

theorem on_data_inv (g : OGlove) (b : Nat) (hb : b < 256) (hInv : Inv g) :
    ∃ gN, g.on_data b = some gN ∧ Inv gN := by
  obtain ⟨hlen, hst, hdata, hlrc⟩ := hInv
  cases hwp : g.is_whole_packet with
  | true => exact ⟨g, on_data_whole g b hwp, hlen, hst, hdata, hlrc⟩
  | false =>
    have h5 : g.decode_state = 0 ∨ g.decode_state = 1 ∨ g.decode_state = 2 ∨
        g.decode_state = 3 ∨ g.decode_state = 4 := by omega
    have hpos : 0 < g.packet_data.length := by omega
    rcases h5 with h | h | h | h | h
    · by_cases h55 : b = 0x55
      · subst h55
        exact ⟨_, on_data_h0_hit g hwp h, hlen,
          (by decide : WAIT_ON_HEADER_1 < 5),
          fun h' => absurd (show (WAIT_ON_HEADER_1 : Nat) = WAIT_ON_DATA from h') (by decide),
          fun h' => absurd (show (WAIT_ON_HEADER_1 : Nat) = WAIT_ON_LRC from h') (by decide)⟩
      · exact ⟨g, on_data_h0_miss g b hwp h h55, hlen, hst, hdata, hlrc⟩
    · by_cases hAA : b = 0xAA
      · have hstep : g.on_data b
            = some { g with decode_state := WAIT_ON_BYTE_COUNT } := by
          rw [on_data_h1 g b hwp h, if_pos hAA]
        exact ⟨_, hstep, hlen, (by decide : WAIT_ON_BYTE_COUNT < 5),
          fun h' => absurd (show (WAIT_ON_BYTE_COUNT : Nat) = WAIT_ON_DATA from h') (by decide),
          fun h' => absurd (show (WAIT_ON_BYTE_COUNT : Nat) = WAIT_ON_LRC from h') (by decide)⟩
      · have hstep : g.on_data b
            = some { g with decode_state := WAIT_ON_HEADER_0 } := by
          rw [on_data_h1 g b hwp h, if_neg hAA]
        exact ⟨_, hstep, hlen, (by decide : WAIT_ON_HEADER_0 < 5),
          fun h' => absurd (show (WAIT_ON_HEADER_0 : Nat) = WAIT_ON_DATA from h') (by decide),
          fun h' => absurd (show (WAIT_ON_HEADER_0 : Nat) = WAIT_ON_LRC from h') (by decide)⟩
    · have hgd : (g.packet_data.set 0 b).getD 0 0 = b :=
        getD_set_self g.packet_data 0 b 0 hpos
      have hlen' : (g.packet_data.set 0 b).length = MAX_PROTOCOL_DATA_SIZE + 2 := by
        rw [List.length_set]
        exact hlen
      by_cases hbig : 64 < b
      · have hstep : g.on_data b = some { g with
            packet_data := g.packet_data.set 0 b, byte_count := (b : Int),
            decode_state := WAIT_ON_HEADER_0 } := by
          rw [on_data_count g b hwp h hb hpos, if_pos hbig]
        exact ⟨_, hstep, hlen', (by decide : WAIT_ON_HEADER_0 < 5),
          fun h' => absurd (show (WAIT_ON_HEADER_0 : Nat) = WAIT_ON_DATA from h') (by decide),
          fun h' => absurd (show (WAIT_ON_HEADER_0 : Nat) = WAIT_ON_LRC from h') (by decide)⟩
      · by_cases hposb : 0 < b
        · have hstep : g.on_data b = some { g with
              packet_data := g.packet_data.set 0 b, byte_count := (b : Int),
              decode_state := WAIT_ON_DATA } := by
            rw [on_data_count g b hwp h hb hpos, if_neg hbig, if_pos hposb]
          refine ⟨_, hstep, hlen', (by decide : WAIT_ON_DATA < 5),
            fun _ => ⟨?_, ?_, ?_⟩,
            fun h' => absurd (show (WAIT_ON_DATA : Nat) = WAIT_ON_LRC from h') (by decide)⟩
          · show (1 : Int) ≤ (b : Int)
            omega
          · show (b : Int) ≤ ((g.packet_data.set 0 b).getD 0 0 : Int)
            rw [hgd]
          · show (g.packet_data.set 0 b).getD 0 0 ≤ 64
            rw [hgd]
            omega
        · have hstep : g.on_data b = some { g with
              packet_data := g.packet_data.set 0 b, byte_count := (b : Int),
              decode_state := WAIT_ON_LRC } := by
            rw [on_data_count g b hwp h hb hpos, if_neg hbig, if_neg hposb]
          refine ⟨_, hstep, hlen', (by decide : WAIT_ON_LRC < 5),
            fun h' => absurd (show (WAIT_ON_LRC : Nat) = WAIT_ON_DATA from h') (by decide),
            fun _ => ?_⟩
          show (g.packet_data.set 0 b).getD 0 0 ≤ 64
          rw [hgd]
          omega
    · obtain ⟨hbc1, hbc2, hL⟩ := hdata h
      set c := g.byte_count.toNat with hc
      have hbc : g.byte_count = (c : Int) := by omega
      have h1c : 1 ≤ c := by omega
      have h2c : c ≤ g.packet_data.getD 0 0 := by omega
      have hne : 1 + g.packet_data.getD 0 0 - c ≠ 0 := by omega
      have hgd : (g.packet_data.set (1 + g.packet_data.getD 0 0 - c) b).getD 0 0
          = g.packet_data.getD 0 0 :=
        getD_set_ne g.packet_data _ 0 b 0 hne
      have hlen' : (g.packet_data.set (1 + g.packet_data.getD 0 0 - c) b).length
          = MAX_PROTOCOL_DATA_SIZE + 2 := by
        rw [List.length_set]
        exact hlen
      by_cases hc1 : c = 1
      · have hstep : g.on_data b = some { g with
            packet_data := g.packet_data.set (1 + g.packet_data.getD 0 0 - c) b,
            byte_count := (c : Int) - 1, decode_state := WAIT_ON_LRC } := by
          rw [on_data_payload g b c hwp h hb hlen hbc h1c h2c hL, if_pos hc1]
        refine ⟨_, hstep, hlen', (by decide : WAIT_ON_LRC < 5),
          fun h' => absurd (show (WAIT_ON_LRC : Nat) = WAIT_ON_DATA from h') (by decide),
          fun _ => ?_⟩
        show (g.packet_data.set (1 + g.packet_data.getD 0 0 - c) b).getD 0 0 ≤ 64
        rw [hgd]
        exact hL
      · have hstep : g.on_data b = some { g with
            packet_data := g.packet_data.set (1 + g.packet_data.getD 0 0 - c) b,
            byte_count := (c : Int) - 1, decode_state := WAIT_ON_DATA } := by
          rw [on_data_payload g b c hwp h hb hlen hbc h1c h2c hL, if_neg hc1]
        refine ⟨_, hstep, hlen', (by decide : WAIT_ON_DATA < 5),
          fun _ => ⟨?_, ?_, ?_⟩,
          fun h' => absurd (show (WAIT_ON_DATA : Nat) = WAIT_ON_LRC from h') (by decide)⟩
        · show (1 : Int) ≤ (c : Int) - 1
          omega
        · show (c : Int) - 1
            ≤ ((g.packet_data.set (1 + g.packet_data.getD 0 0 - c) b).getD 0 0 : Int)
          rw [hgd]
          omega
        · show (g.packet_data.set (1 + g.packet_data.getD 0 0 - c) b).getD 0 0 ≤ 64
          rw [hgd]
          exact hL
    · refine ⟨_, on_data_lrc g b hwp h hb hlen (hlrc h), ?_,
        (by decide : WAIT_ON_HEADER_0 < 5),
        fun h' => absurd (show (WAIT_ON_HEADER_0 : Nat) = WAIT_ON_DATA from h') (by decide),
        fun h' => absurd (show (WAIT_ON_HEADER_0 : Nat) = WAIT_ON_LRC from h') (by decide)⟩
      show (g.packet_data.set (1 + g.packet_data.getD 0 0) b).length
        = MAX_PROTOCOL_DATA_SIZE + 2
      rw [List.length_set]
      exact hlen

theorem feedAll_whole (bs : List Nat) : ∀ g : OGlove, g.is_whole_packet = true →
    feedAll g bs = some g := by
  induction bs with
  | nil => intro g _; rfl
  | cons b rest ih =>
    intro g hw
    rw [feedAll, on_data_whole g b hw, Option.some_bind]
    exact ih g hw

theorem feedAll_inv (bs : List Nat) : ∀ g : OGlove, (∀ b ∈ bs, b < 256) → Inv g →
    ∃ g', feedAll g bs = some g' ∧ Inv g' := by
  induction bs with
  | nil => intro g _ hInv; exact ⟨g, rfl, hInv⟩
  | cons b rest ih =>
    intro g hb hInv
    obtain ⟨gN, hstep, hInvN⟩ :=
      on_data_inv g b (hb b (List.mem_cons_self b rest)) hInv
    obtain ⟨g', hfeed, hInv'⟩ :=
      ih gN (fun x hx => hb x (List.mem_cons_of_mem b hx)) hInvN
    exact ⟨g', by rw [feedAll, hstep, Option.some_bind]; exact hfeed, hInv'⟩

theorem Reachable_inv (g : OGlove) (h : Reachable g) : Inv g := by
  obtain ⟨bs, hb, hfeed⟩ := h
  obtain ⟨g', hfeed', hInv'⟩ := feedAll_inv bs OGlove.mkInit hb Inv_mkInit
  rw [hfeed] at hfeed'
  exact (Option.some_inj.mp hfeed') ▸ hInv'

/-! ### The completion flag tracks the spec scanner (master simulation lemma) -/

theorem feedAll_flag (bs : List Nat) : ∀ g : OGlove, (∀ b ∈ bs, b < 256) → Inv g →
    g.is_whole_packet = false →
    ∃ g', feedAll g bs = some g' ∧
      (g.decode_state = WAIT_ON_HEADER_0 → g'.is_whole_packet = specScanH0 bs) ∧
      (g.decode_state = WAIT_ON_HEADER_1 → g'.is_whole_packet = specScanH1 bs) ∧
      (g.decode_state = WAIT_ON_BYTE_COUNT → g'.is_whole_packet = specScanLen bs) ∧
      (g.decode_state = WAIT_ON_DATA →
        g'.is_whole_packet = decide (g.byte_count + 1 ≤ (bs.length : Int))) ∧
      (g.decode_state = WAIT_ON_LRC → g'.is_whole_packet = decide (1 ≤ bs.length)) := by
  induction bs with
  | nil =>
    intro g _ hInv hwp
    refine ⟨g, rfl, fun _ => by rw [hwp]; rfl, fun _ => by rw [hwp]; rfl,
      fun _ => by rw [hwp]; rfl, fun h => ?_, fun _ => by rw [hwp]; rfl⟩
    rw [hwp]
    obtain ⟨h1, _, _⟩ := hInv.2.2.1 h
    symm
    exact decide_eq_false (by simp only [List.length_nil]; omega)
  | cons b rest ih =>
    intro g hb hInv hwp
    obtain ⟨hlen, hst, hdata, hlrc⟩ := hInv
    have hb1 : b < 256 := hb b (List.mem_cons_self b rest)
    have hbrest : ∀ x ∈ rest, x < 256 := fun x hx => hb x (List.mem_cons_of_mem b hx)
    have hpos : 0 < g.packet_data.length := by omega
    have h5 : g.decode_state = 0 ∨ g.decode_state = 1 ∨ g.decode_state = 2 ∨
        g.decode_state = 3 ∨ g.decode_state = 4 := by omega
    rcases h5 with h | h | h | h | h
    · by_cases h55 : b = 0x55
      · subst h55
        have hstep := on_data_h0_hit g hwp h
        obtain ⟨g', hfeed, hc0, hc1, hc2, hc3, hc4⟩ :=
          ih { g with decode_state := WAIT_ON_HEADER_1 } hbrest
            ⟨hlen, (by decide : WAIT_ON_HEADER_1 < 5),
              fun h' => absurd (show (WAIT_ON_HEADER_1 : Nat) = WAIT_ON_DATA from h')
                (by decide),
              fun h' => absurd (show (WAIT_ON_HEADER_1 : Nat) = WAIT_ON_LRC from h')
                (by decide)⟩ hwp
        refine ⟨g', by rw [feedAll, hstep, Option.some_bind]; exact hfeed,
          fun _ => ?_,
          fun h' => absurd (h.symm.trans h') (by decide),
          fun h' => absurd (h.symm.trans h') (by decide),
          fun h' => absurd (h.symm.trans h') (by decide),
          fun h' => absurd (h.symm.trans h') (by decide)⟩
        rw [specScanH0, if_pos rfl]
        exact hc1 rfl
      · have hstep := on_data_h0_miss g b hwp h h55
        obtain ⟨g', hfeed, hc0, hc1, hc2, hc3, hc4⟩ :=
          ih g hbrest ⟨hlen, hst, hdata, hlrc⟩ hwp
        refine ⟨g', by rw [feedAll, hstep, Option.some_bind]; exact hfeed,
          fun _ => ?_,
          fun h' => absurd (h.symm.trans h') (by decide),
          fun h' => absurd (h.symm.trans h') (by decide),
          fun h' => absurd (h.symm.trans h') (by decide),
          fun h' => absurd (h.symm.trans h') (by decide)⟩
        rw [specScanH0, if_neg h55]
        exact hc0 h
    · by_cases hAA : b = 0xAA
      · have hstep : g.on_data b
            = some { g with decode_state := WAIT_ON_BYTE_COUNT } := by
          rw [on_data_h1 g b hwp h, if_pos hAA]
        obtain ⟨g', hfeed, hc0, hc1, hc2, hc3, hc4⟩ :=
          ih { g with decode_state := WAIT_ON_BYTE_COUNT } hbrest
            ⟨hlen, (by decide : WAIT_ON_BYTE_COUNT < 5),
              fun h' => absurd (show (WAIT_ON_BYTE_COUNT : Nat) = WAIT_ON_DATA from h')
                (by decide),
              fun h' => absurd (show (WAIT_ON_BYTE_COUNT : Nat) = WAIT_ON_LRC from h')
                (by decide)⟩ hwp
        refine ⟨g', by rw [feedAll, hstep, Option.some_bind]; exact hfeed,
          fun h' => absurd (h.symm.trans h') (by decide),
          fun _ => ?_,
          fun h' => absurd (h.symm.trans h') (by decide),
          fun h' => absurd (h.symm.trans h') (by decide),
          fun h' => absurd (h.symm.trans h') (by decide)⟩
        rw [specScanH1, if_pos hAA]
        exact hc2 rfl
      · have hstep : g.on_data b
            = some { g with decode_state := WAIT_ON_HEADER_0 } := by
          rw [on_data_h1 g b hwp h, if_neg hAA]
        obtain ⟨g', hfeed, hc0, hc1, hc2, hc3, hc4⟩ :=
          ih { g with decode_state := WAIT_ON_HEADER_0 } hbrest
            ⟨hlen, (by decide : WAIT_ON_HEADER_0 < 5),
              fun h' => absurd (show (WAIT_ON_HEADER_0 : Nat) = WAIT_ON_DATA from h')
                (by decide),
              fun h' => absurd (show (WAIT_ON_HEADER_0 : Nat) = WAIT_ON_LRC from h')
                (by decide)⟩ hwp
        refine ⟨g', by rw [feedAll, hstep, Option.some_bind]; exact hfeed,
          fun h' => absurd (h.symm.trans h') (by decide),
          fun _ => ?_,
          fun h' => absurd (h.symm.trans h') (by decide),
          fun h' => absurd (h.symm.trans h') (by decide),
          fun h' => absurd (h.symm.trans h') (by decide)⟩
        rw [specScanH1, if_neg hAA]
        exact hc0 rfl
    · have hgd : (g.packet_data.set 0 b).getD 0 0 = b :=
        getD_set_self g.packet_data 0 b 0 hpos
      have hlen' : (g.packet_data.set 0 b).length = MAX_PROTOCOL_DATA_SIZE + 2 := by
        rw [List.length_set]
        exact hlen
      by_cases hbig : 64 < b
      · have hstep : g.on_data b = some { g with
            packet_data := g.packet_data.set 0 b, byte_count := (b : Int),
            decode_state := WAIT_ON_HEADER_0 } := by
          rw [on_data_count g b hwp h hb1 hpos, if_pos hbig]
        obtain ⟨g', hfeed, hc0, hc1, hc2, hc3, hc4⟩ :=
          ih { g with
              packet_data := g.packet_data.set 0 b, byte_count := (b : Int),
              decode_state := WAIT_ON_HEADER_0 } hbrest
            ⟨hlen', (by decide : WAIT_ON_HEADER_0 < 5),
              fun h' => absurd (show (WAIT_ON_HEADER_0 : Nat) = WAIT_ON_DATA from h')
                (by decide),
              fun h' => absurd (show (WAIT_ON_HEADER_0 : Nat) = WAIT_ON_LRC from h')
                (by decide)⟩ hwp
        refine ⟨g', by rw [feedAll, hstep, Option.some_bind]; exact hfeed,
          fun h' => absurd (h.symm.trans h') (by decide),
          fun h' => absurd (h.symm.trans h') (by decide),
          fun _ => ?_,
          fun h' => absurd (h.symm.trans h') (by decide),
          fun h' => absurd (h.symm.trans h') (by decide)⟩
        rw [specScanLen, if_neg (by omega : ¬ b ≤ 64)]
        exact hc0 rfl
      · by_cases hposb : 0 < b
        · have hstep : g.on_data b = some { g with
              packet_data := g.packet_data.set 0 b, byte_count := (b : Int),
              decode_state := WAIT_ON_DATA } := by
            rw [on_data_count g b hwp h hb1 hpos, if_neg hbig, if_pos hposb]
          obtain ⟨g', hfeed, hc0, hc1, hc2, hc3, hc4⟩ :=
            ih { g with
                packet_data := g.packet_data.set 0 b, byte_count := (b : Int),
                decode_state := WAIT_ON_DATA } hbrest
              ⟨hlen', (by decide : WAIT_ON_DATA < 5),
                fun _ => ⟨(by exact_mod_cast hposb : (1 : Int) ≤ (b : Int)),
                  by show (b : Int) ≤ ((g.packet_data.set 0 b).getD 0 0 : Int)
                     rw [hgd],
                  by show (g.packet_data.set 0 b).getD 0 0 ≤ 64
                     rw [hgd]
                     omega⟩,
                fun h' => absurd (show (WAIT_ON_DATA : Nat) = WAIT_ON_LRC from h')
                  (by decide)⟩ hwp
          refine ⟨g', by rw [feedAll, hstep, Option.some_bind]; exact hfeed,
            fun h' => absurd (h.symm.trans h') (by decide),
            fun h' => absurd (h.symm.trans h') (by decide),
            fun _ => ?_,
            fun h' => absurd (h.symm.trans h') (by decide),
            fun h' => absurd (h.symm.trans h') (by decide)⟩
          rw [specScanLen, if_pos (by omega : b ≤ 64), hc3 rfl]
          refine decide_eq_decide.mpr ?_
          show (b : Int) + 1 ≤ (rest.length : Int) ↔ b + 1 ≤ rest.length
          omega
        · have hstep : g.on_data b = some { g with
              packet_data := g.packet_data.set 0 b, byte_count := (b : Int),
              decode_state := WAIT_ON_LRC } := by
            rw [on_data_count g b hwp h hb1 hpos, if_neg hbig, if_neg hposb]
          obtain ⟨g', hfeed, hc0, hc1, hc2, hc3, hc4⟩ :=
            ih { g with
                packet_data := g.packet_data.set 0 b, byte_count := (b : Int),
                decode_state := WAIT_ON_LRC } hbrest
              ⟨hlen', (by decide : WAIT_ON_LRC < 5),
                fun h' => absurd (show (WAIT_ON_LRC : Nat) = WAIT_ON_DATA from h')
                  (by decide),
                fun _ => by
                  show (g.packet_data.set 0 b).getD 0 0 ≤ 64
                  rw [hgd]
                  omega⟩ hwp
          refine ⟨g', by rw [feedAll, hstep, Option.some_bind]; exact hfeed,
            fun h' => absurd (h.symm.trans h') (by decide),
            fun h' => absurd (h.symm.trans h') (by decide),
            fun _ => ?_,
            fun h' => absurd (h.symm.trans h') (by decide),
            fun h' => absurd (h.symm.trans h') (by decide)⟩
          rw [specScanLen, if_pos (by omega : b ≤ 64), hc4 rfl]
          exact decide_eq_decide.mpr (by omega)
    · obtain ⟨hbc1, hbc2, hL⟩ := hdata h
      set c := g.byte_count.toNat with hc
      have hbc : g.byte_count = (c : Int) := by omega
      have h1c : 1 ≤ c := by omega
      have h2c : c ≤ g.packet_data.getD 0 0 := by omega
      have hne : 1 + g.packet_data.getD 0 0 - c ≠ 0 := by omega
      have hgd : (g.packet_data.set (1 + g.packet_data.getD 0 0 - c) b).getD 0 0
          = g.packet_data.getD 0 0 :=
        getD_set_ne g.packet_data _ 0 b 0 hne
      have hlen' : (g.packet_data.set (1 + g.packet_data.getD 0 0 - c) b).length
          = MAX_PROTOCOL_DATA_SIZE + 2 := by
        rw [List.length_set]
        exact hlen
      by_cases hc1c : c = 1
      · have hstep : g.on_data b = some { g with
            packet_data := g.packet_data.set (1 + g.packet_data.getD 0 0 - c) b,
            byte_count := (c : Int) - 1, decode_state := WAIT_ON_LRC } := by
          rw [on_data_payload g b c hwp h hb1 hlen hbc h1c h2c hL, if_pos hc1c]
        obtain ⟨g', hfeed, hc0, hc1, hc2, hc3, hc4⟩ :=
          ih { g with
              packet_data := g.packet_data.set (1 + g.packet_data.getD 0 0 - c) b,
              byte_count := (c : Int) - 1, decode_state := WAIT_ON_LRC } hbrest
            ⟨hlen', (by decide : WAIT_ON_LRC < 5),
              fun h' => absurd (show (WAIT_ON_LRC : Nat) = WAIT_ON_DATA from h')
                (by decide),
              fun _ => by
                show (g.packet_data.set (1 + g.packet_data.getD 0 0 - c) b).getD 0 0 ≤ 64
                rw [hgd]
                exact hL⟩ hwp
        refine ⟨g', by rw [feedAll, hstep, Option.some_bind]; exact hfeed,
          fun h' => absurd (h.symm.trans h') (by decide),
          fun h' => absurd (h.symm.trans h') (by decide),
          fun h' => absurd (h.symm.trans h') (by decide),
          fun _ => ?_,
          fun h' => absurd (h.symm.trans h') (by decide)⟩
        rw [hc4 rfl, hbc]
        simp only [List.length_cons]
        exact decide_eq_decide.mpr (by omega)
      · have hstep : g.on_data b = some { g with
            packet_data := g.packet_data.set (1 + g.packet_data.getD 0 0 - c) b,
            byte_count := (c : Int) - 1, decode_state := WAIT_ON_DATA } := by
          rw [on_data_payload g b c hwp h hb1 hlen hbc h1c h2c hL, if_neg hc1c]
        obtain ⟨g', hfeed, hc0, hc1, hc2, hc3, hc4⟩ :=
          ih { g with
              packet_data := g.packet_data.set (1 + g.packet_data.getD 0 0 - c) b,
              byte_count := (c : Int) - 1, decode_state := WAIT_ON_DATA } hbrest
            ⟨hlen', (by decide : WAIT_ON_DATA < 5),
              fun _ => ⟨(by omega : (1 : Int) ≤ (c : Int) - 1),
                by show (c : Int) - 1 ≤
                     ((g.packet_data.set (1 + g.packet_data.getD 0 0 - c) b).getD 0 0 : Int)
                   rw [hgd]
                   omega,
                by show (g.packet_data.set (1 + g.packet_data.getD 0 0 - c) b).getD 0 0 ≤ 64
                   rw [hgd]
                   exact hL⟩,
              fun h' => absurd (show (WAIT_ON_DATA : Nat) = WAIT_ON_LRC from h')
                (by decide)⟩ hwp
        refine ⟨g', by rw [feedAll, hstep, Option.some_bind]; exact hfeed,
          fun h' => absurd (h.symm.trans h') (by decide),
          fun h' => absurd (h.symm.trans h') (by decide),
          fun h' => absurd (h.symm.trans h') (by decide),
          fun _ => ?_,
          fun h' => absurd (h.symm.trans h') (by decide)⟩
        rw [hc3 rfl, hbc]
        simp only [List.length_cons]
        exact decide_eq_decide.mpr (by omega)
    · have hstep := on_data_lrc g b hwp h hb1 hlen (hlrc h)
      refine ⟨_, by rw [feedAll, hstep, Option.some_bind]; exact feedAll_whole rest _ rfl,
        fun h' => absurd (h.symm.trans h') (by decide),
        fun h' => absurd (h.symm.trans h') (by decide),
        fun h' => absurd (h.symm.trans h') (by decide),
        fun h' => absurd (h.symm.trans h') (by decide),
        fun _ => ?_⟩
      show true = decide (1 ≤ (b :: rest).length)
      symm
      exact decide_eq_true (by simp only [List.length_cons]; omega)

/-- C1: For every finite byte sequence fed one byte at a time into a
freshly constructed decoder via `on_data`, the completion flag
`is_whole_packet` becomes set if and only if the sequence contains a
contiguous run `[0x55, 0xAA, LEN, LEN payload bytes, CHK]` with `LEN ≤ 64`,
scanning left to right with resynchronization on mismatched header bytes,
where a byte failing the second-header check is dropped and not re-examined
(the discipline embodied in the spec scanner `specScanH0`). -/
theorem C1_flag_iff_specScan (bs : List Nat) (hb : ∀ b ∈ bs, b < 256) :
    ∃ g', feedAll OGlove.mkInit bs = some g'
      ∧ g'.is_whole_packet = specScanH0 bs := by
  obtain ⟨g', hfeed, hc0, _, _, _, _⟩ := feedAll_flag bs OGlove.mkInit hb Inv_mkInit rfl
  exact ⟨g', hfeed, hc0 rfl⟩

/-- Witness for C1 at the spec's own resynchronization example
`[0x11, 0x55, 0xAA, 0x02, 0x01, 0x02, CHK]`. -/
theorem C1_flag_iff_specScan_witness :
    ∃ g', feedAll OGlove.mkInit [0x11, 0x55, 0xAA, 0x02, 0x01, 0x02, 0x01] = some g'
      ∧ g'.is_whole_packet
        = specScanH0 [0x11, 0x55, 0xAA, 0x02, 0x01, 0x02, 0x01] :=
  C1_flag_iff_specScan [0x11, 0x55, 0xAA, 0x02, 0x01, 0x02, 0x01] (by decide)

/-! ### Feeding a complete frame -/

theorem feedAll_append (xs ys : List Nat) : ∀ g : OGlove,
    feedAll g (xs ++ ys) = (feedAll g xs).bind fun g1 => feedAll g1 ys := by
  induction xs with
  | nil => intro g; rw [List.nil_append, feedAll, Option.some_bind]
  | cons x xs ih =>
    intro g
    rw [List.cons_append, feedAll, feedAll]
    cases g.on_data x with
    | none => rfl
    | some gN => rw [Option.some_bind, Option.some_bind, ih gN]

/-- Feeding exactly the remaining payload bytes from the `WAIT_ON_DATA`
state writes them at consecutive positions and lands in `WAIT_ON_LRC`. -/
theorem feed_chunk (chunk : List Nat) : ∀ g : OGlove, g.is_whole_packet = false →
    g.decode_state = WAIT_ON_DATA → (∀ x ∈ chunk, x < 256) →
    g.packet_data.length = MAX_PROTOCOL_DATA_SIZE + 2 →
    g.byte_count = (chunk.length : Int) → 1 ≤ chunk.length →
    chunk.length ≤ g.packet_data.getD 0 0 → g.packet_data.getD 0 0 ≤ 64 →
    ∃ g', feedAll g chunk = some g' ∧
      g'.is_whole_packet = false ∧ g'.decode_state = WAIT_ON_LRC ∧
      g'.packet_data
        = setChunk g.packet_data (1 + g.packet_data.getD 0 0 - chunk.length) chunk := by
  induction chunk with
  | nil => intro g _ _ _ _ _ h1 _ _; exact absurd h1 (by decide)
  | cons v vs ih =>
    intro g hwp hs hx hlen hbc h1 h2 hL
    have hv : v < 256 := hx v (List.mem_cons_self v vs)
    have hlc : (v :: vs).length = vs.length + 1 := List.length_cons v vs
    have hbc' : g.byte_count = ((vs.length + 1 : Nat) : Int) := by rw [hbc, hlc]
    have h2' : vs.length + 1 ≤ g.packet_data.getD 0 0 := by rw [hlc] at h2; exact h2
    have hstep0 := on_data_payload g v (vs.length + 1) hwp hs hv hlen hbc'
      (by omega) h2' hL
    cases vs with
    | nil =>
      rw [if_pos (by simp : List.length ([] : List Nat) + 1 = 1)] at hstep0
      refine ⟨{ g with
          packet_data := g.packet_data.set
            (1 + g.packet_data.getD 0 0 - (List.length ([] : List Nat) + 1)) v
          byte_count := ((List.length ([] : List Nat) + 1 : Nat) : Int) - 1
          decode_state := WAIT_ON_LRC }, ?_, hwp, rfl, ?_⟩
      · rw [feedAll, hstep0, Option.some_bind]
        rfl
      · rfl
    | cons w ws =>
      rw [if_neg (by rw [List.length_cons]; omega)] at hstep0
      have hne : ¬ 1 + g.packet_data.getD 0 0 - ((w :: ws).length + 1) = 0 := by
        rw [List.length_cons] at h2' ⊢
        omega
      have hgdR : (g.packet_data.set
            (1 + g.packet_data.getD 0 0 - ((w :: ws).length + 1)) v).getD 0 0
          = g.packet_data.getD 0 0 :=
        getD_set_ne g.packet_data _ 0 v 0 hne
      obtain ⟨g', hfeed, hflag, hds, hpd⟩ := ih
        { g with
          packet_data :=
            g.packet_data.set (1 + g.packet_data.getD 0 0 - ((w :: ws).length + 1)) v
          byte_count := (((w :: ws).length + 1 : Nat) : Int) - 1
          decode_state := WAIT_ON_DATA }
        hwp rfl (fun x hxm => hx x (List.mem_cons_of_mem v hxm))
        (by rw [List.length_set]; exact hlen)
        (by show (((w :: ws).length + 1 : Nat) : Int) - 1 = ((w :: ws).length : Nat); omega)
        (by rw [List.length_cons]; omega)
        (by rw [hgdR]; rw [hlc, List.length_cons] at h2; omega)
        (by rw [hgdR]; exact hL)
      refine ⟨g', ?_, hflag, hds, ?_⟩
      · rw [feedAll, hstep0, Option.some_bind]
        exact hfeed
      · rw [hpd, hgdR]
        conv_rhs => rw [setChunk]
        have e1 := List.length_cons w ws
        have e2 := List.length_cons v (w :: ws)
        have harith : 1 + g.packet_data.getD 0 0 - (w :: ws).length
            = (1 + g.packet_data.getD 0 0 - (v :: w :: ws).length) + 1 := by omega
        rw [harith]
        rfl

/-- Feeding a whole wire frame `[0x55, 0xAA, len, payload, chk]` from the
header-scanning state assembles it in `packet_data` and sets the flag;
`chk` is an arbitrary byte, not necessarily the correct checksum. -/
theorem feed_frame_raw (g : OGlove) (len : Nat) (payload : List Nat) (chk : Nat)
    (hwp : g.is_whole_packet = false) (hs : g.decode_state = WAIT_ON_HEADER_0)
    (hlen : g.packet_data.length = MAX_PROTOCOL_DATA_SIZE + 2)
    (hlen64 : len ≤ 64) (hp : payload.length = len)
    (hpx : ∀ x ∈ payload, x < 256) (hchk : chk < 256) :
    ∃ g', feedAll g (frameBytes len payload chk) = some g' ∧
      g'.is_whole_packet = true ∧ g'.decode_state = WAIT_ON_HEADER_0 ∧
      g'.packet_data.length = MAX_PROTOCOL_DATA_SIZE + 2 ∧
      g'.packet_data = len :: (payload ++ chk :: g.packet_data.drop (len + 2)) := by
  have hpos : 0 < g.packet_data.length := by omega
  have hlen66 : g.packet_data.length = 66 :=
    hlen.trans (show MAX_PROTOCOL_DATA_SIZE + 2 = 66 from rfl)
  have hstep1 := on_data_h0_hit g hwp hs
  have hstep2 : OGlove.on_data { g with decode_state := WAIT_ON_HEADER_1 } 0xAA
      = some { g with decode_state := WAIT_ON_BYTE_COUNT } := by
    rw [on_data_h1 { g with decode_state := WAIT_ON_HEADER_1 } 0xAA hwp rfl,
      if_pos rfl]
  have hsplice0 : g.packet_data.set 0 len = len :: g.packet_data.drop 1 := by
    rw [List.set_eq_take_append_cons_drop, if_pos hpos]
    rfl
  have hlenset : (g.packet_data.set 0 len).length = MAX_PROTOCOL_DATA_SIZE + 2 := by
    rw [List.length_set]
    exact hlen
  cases Nat.eq_zero_or_pos len with
  | inl hlen0 =>
    subst hlen0
    have hpnil : payload = [] := List.length_eq_zero.mp hp
    subst hpnil
    have hstep3 : OGlove.on_data { g with decode_state := WAIT_ON_BYTE_COUNT } 0
        = some { g with
            packet_data := g.packet_data.set 0 0,
            byte_count := ((0 : Nat) : Int), decode_state := WAIT_ON_LRC } := by
      rw [on_data_count { g with decode_state := WAIT_ON_BYTE_COUNT } 0 hwp rfl
        (by omega) hpos, if_neg (by omega), if_neg (by omega)]
    have hgd3 : (g.packet_data.set 0 0).getD 0 0 = 0 :=
      getD_set_self g.packet_data 0 0 0 hpos
    have hstep4 : OGlove.on_data { g with
          packet_data := g.packet_data.set 0 0,
          byte_count := ((0 : Nat) : Int), decode_state := WAIT_ON_LRC } chk
        = some { g with
            packet_data := (g.packet_data.set 0 0).set
              (1 + (g.packet_data.set 0 0).getD 0 0) chk,
            byte_count := ((0 : Nat) : Int),
            is_whole_packet := true, decode_state := WAIT_ON_HEADER_0 } := by
      exact on_data_lrc _ chk hwp rfl hchk hlenset (by rw [hgd3]; omega)
    refine ⟨{ g with
        packet_data := (g.packet_data.set 0 0).set
          (1 + (g.packet_data.set 0 0).getD 0 0) chk,
        byte_count := ((0 : Nat) : Int),
        is_whole_packet := true, decode_state := WAIT_ON_HEADER_0 },
      ?_, rfl, rfl, ?_, ?_⟩
    · show feedAll g [0x55, 0xAA, 0x00, chk] = _
      rw [feedAll, hstep1, Option.some_bind, feedAll, hstep2, Option.some_bind,
        feedAll, hstep3, Option.some_bind, feedAll, hstep4, Option.some_bind]
      rfl
    · show ((g.packet_data.set 0 0).set (1 + (g.packet_data.set 0 0).getD 0 0) chk).length
        = MAX_PROTOCOL_DATA_SIZE + 2
      rw [List.length_set, List.length_set]
      exact hlen
    · show (g.packet_data.set 0 0).set (1 + (g.packet_data.set 0 0).getD 0 0) chk
        = 0 :: ([] ++ chk :: g.packet_data.drop (0 + 2))
      rw [hgd3, hsplice0, List.set_eq_take_append_cons_drop,
        if_pos (by simp [List.length_drop, hlen66])]
      have hdrop2 : List.drop (1 + 0 + 1) (0 :: List.drop 1 g.packet_data)
          = List.drop (0 + 2) g.packet_data := by
        rw [List.drop_succ_cons, List.drop_drop]
      rw [hdrop2]
      rfl
  | inr hlenpos =>
    have hstep3 : OGlove.on_data { g with decode_state := WAIT_ON_BYTE_COUNT } len
        = some { g with
            packet_data := g.packet_data.set 0 len,
            byte_count := (len : Int), decode_state := WAIT_ON_DATA } := by
      rw [on_data_count { g with decode_state := WAIT_ON_BYTE_COUNT } len hwp rfl
        (by omega) hpos, if_neg (by omega), if_pos hlenpos]
    have hgd3 : (g.packet_data.set 0 len).getD 0 0 = len :=
      getD_set_self g.packet_data 0 len 0 hpos
    obtain ⟨g4, hfeedp, hflag4, hds4, hpd4⟩ := feed_chunk payload
      { g with
        packet_data := g.packet_data.set 0 len,
        byte_count := (len : Int), decode_state := WAIT_ON_DATA }
      hwp rfl hpx hlenset (by rw [hp]) (by omega) (by rw [hgd3, hp])
      (by rw [hgd3]; exact hlen64)
    have hpd4' : g4.packet_data = len :: (payload ++ g.packet_data.drop (1 + len)) := by
      rw [hpd4]
      show setChunk (g.packet_data.set 0 len)
          (1 + (g.packet_data.set 0 len).getD 0 0 - payload.length) payload = _
      rw [hgd3, hp, Nat.add_sub_cancel, hsplice0,
        setChunk_eq payload (len :: g.packet_data.drop 1) 1
          (by simp [List.length_drop, hp, hlen66]; omega)]
      have hdropp : (len :: g.packet_data.drop 1).drop (1 + payload.length)
          = g.packet_data.drop (1 + len) := by
        rw [hp, Nat.add_comm 1 len, List.drop_succ_cons, List.drop_drop,
          Nat.add_comm 1 len]
      rw [hdropp]
      rfl
    have hlen4 : g4.packet_data.length = MAX_PROTOCOL_DATA_SIZE + 2 := by
      rw [hpd4', List.length_cons, List.length_append, hp, List.length_drop, hlen]
      unfold MAX_PROTOCOL_DATA_SIZE at *
      omega
    have hgd4 : g4.packet_data.getD 0 0 = len := by
      rw [hpd4', List.getD_cons_zero]
    have hstep5 := on_data_lrc g4 chk hflag4 hds4 hchk hlen4 (by rw [hgd4]; omega)
    refine ⟨{ g4 with
        packet_data := g4.packet_data.set (1 + g4.packet_data.getD 0 0) chk,
        is_whole_packet := true, decode_state := WAIT_ON_HEADER_0 },
      ?_, rfl, rfl, ?_, ?_⟩
    · show feedAll g (0x55 :: 0xAA :: len :: (payload ++ [chk])) = _
      rw [feedAll, hstep1, Option.some_bind, feedAll, hstep2, Option.some_bind,
        feedAll, hstep3, Option.some_bind, feedAll_append payload [chk], hfeedp,
        Option.some_bind, feedAll, hstep5, Option.some_bind]
      rfl
    · show (g4.packet_data.set (1 + g4.packet_data.getD 0 0) chk).length
        = MAX_PROTOCOL_DATA_SIZE + 2
      rw [List.length_set]
      exact hlen4
    · show g4.packet_data.set (1 + g4.packet_data.getD 0 0) chk
        = len :: (payload ++ chk :: g.packet_data.drop (len + 2))
      rw [hgd4, hpd4']
      have hlenLP : (len :: payload).length = 1 + len := by
        rw [List.length_cons, hp]
        omega
      have hsplit : len :: (payload ++ g.packet_data.drop (1 + len))
          = (len :: payload) ++ g.packet_data.drop (1 + len) := rfl
      rw [hsplit, List.set_eq_take_append_cons_drop,
        if_pos (by rw [List.length_append, hlenLP, List.length_drop, hlen66]; omega),
        List.take_left' hlenLP]
      have hdropG : ((len :: payload) ++ g.packet_data.drop (1 + len)).drop (1 + len + 1)
          = g.packet_data.drop (len + 2) := by
        rw [show 1 + len + 1 = (len :: payload).length + 1 from by rw [hlenLP],
          ← List.drop_drop, List.drop_left' rfl, List.drop_drop,
          show 1 + len + 1 = len + 2 from by omega]
      rw [hdropG]
      rfl

/-! ### Validation of an assembled frame -/

theorem validate_stored (g : OGlove) (len : Nat) (payload : List Nat) (chk : Nat)
    (R : List Nat) (hpd : g.packet_data = len :: (payload ++ chk :: R))
    (hp : payload.length = len) :
    g.packet_data.getD (DATA_START_BYTE_NUM + len) 0 = chk := by
  rw [hpd, show DATA_START_BYTE_NUM + len = len + 1 from by
      unfold DATA_START_BYTE_NUM; omega,
    List.getD_cons_succ, List.getD_eq_getElem?_getD,
    List.getElem?_append_right (by omega : payload.length ≤ len), hp, Nat.sub_self,
    List.getElem?_cons_zero]
  rfl

theorem validate_lrc (g : OGlove) (len : Nat) (payload : List Nat) (chk : Nat)
    (R : List Nat) (hpd : g.packet_data = len :: (payload ++ chk :: R))
    (hp : payload.length = len) :
    calc_lrc g.packet_data (len + 1) = lrcFold (len :: payload) := by
  have hlen1 : len + 1 ≤ g.packet_data.length := by
    rw [hpd]
    simp [List.length_append, hp]
  rw [calc_lrc_eq_lrcFold_take g.packet_data (len + 1) hlen1, hpd,
    List.take_succ_cons, List.take_left' hp]

theorem validate_match (g : OGlove) (len : Nat) (payload : List Nat) (chk : Nat)
    (R : List Nat) (resp : Option (List Nat))
    (hpd : g.packet_data = len :: (payload ++ chk :: R))
    (hp : payload.length = len) (hchk : chk = lrcFold (len :: payload)) :
    g.get_data_validate resp
      = ({ g with is_whole_packet := false }, resp.map (fun _ => payload), true) := by
  have hcnt : g.packet_data.getD DATA_CNT_BYTE_NUM 0 = len := by
    rw [hpd]
    exact List.getD_cons_zero
  have hcond : (calc_lrc g.packet_data (g.packet_data.getD DATA_CNT_BYTE_NUM 0 + 1)
      ≠ g.packet_data.getD
        (DATA_START_BYTE_NUM + g.packet_data.getD DATA_CNT_BYTE_NUM 0) 0) = False := by
    rw [hcnt, validate_lrc g len payload chk R hpd hp,
      validate_stored g len payload chk R hpd hp, hchk]
    simp
  have hslice : (g.packet_data.drop DATA_START_BYTE_NUM).take
      (g.packet_data.getD DATA_CNT_BYTE_NUM 0) = payload := by
    rw [hcnt, hpd]
    show (payload ++ chk :: R).take len = payload
    exact List.take_left' hp
  unfold OGlove.get_data_validate
  simp only [hcond, if_false]
  cases resp with
  | none => rfl
  | some buf =>
    rw [Option.map_some']
    simp only [hslice]

theorem validate_mismatch (g : OGlove) (len : Nat) (payload : List Nat) (chk : Nat)
    (R : List Nat) (resp : Option (List Nat))
    (hpd : g.packet_data = len :: (payload ++ chk :: R))
    (hp : payload.length = len) (hchk : chk ≠ lrcFold (len :: payload)) :
    g.get_data_validate resp
      = ({ g with is_whole_packet := false }, resp, false) := by
  have hcnt : g.packet_data.getD DATA_CNT_BYTE_NUM 0 = len := by
    rw [hpd]
    exact List.getD_cons_zero
  have hcond : (calc_lrc g.packet_data (g.packet_data.getD DATA_CNT_BYTE_NUM 0 + 1)
      ≠ g.packet_data.getD
        (DATA_START_BYTE_NUM + g.packet_data.getD DATA_CNT_BYTE_NUM 0) 0) = True := by
    rw [hcnt, validate_lrc g len payload chk R hpd hp,
      validate_stored g len payload chk R hpd hp]
    exact eq_true fun h => hchk h.symm
  unfold OGlove.get_data_validate
  simp only [hcond, if_true]

/-! ### Unfolding the read loop -/

theorem run_get_data_whole (g : OGlove) (resp : Option (List Nat)) (deadline : Nat)
    (sched : List (List Nat × Nat)) (hw : g.is_whole_packet = true) :
    g.run_get_data resp deadline sched = some (g.get_data_validate resp) := by
  rw [OGlove.run_get_data.eq_def, if_pos hw]

theorem run_get_data_step (g gN : OGlove) (resp : Option (List Nat))
    (deadline now : Nat) (bs : List Nat) (rest : List (List Nat × Nat))
    (hw : g.is_whole_packet = false) (hfeed : feedAll g bs = some gN) :
    g.run_get_data resp deadline ((bs, now) :: rest)
      = if ¬ gN.is_whole_packet ∧ deadline < now
        then some ({ gN with decode_state := WAIT_ON_HEADER_0 }, resp, false)
        else gN.run_get_data resp deadline rest := by
  rw [OGlove.run_get_data.eq_def, if_neg (by rw [hw]; exact Bool.false_ne_true)]
  show ((feedAll g bs).bind fun gNext =>
      if ¬ gNext.is_whole_packet = true ∧ deadline < now then
        some ({ gNext with decode_state := WAIT_ON_HEADER_0 }, resp, false)
      else gNext.run_get_data resp deadline rest) = _
  rw [hfeed, Option.some_bind]

/-! ### The remaining claims -/

theorem frame_chk_lt (len : Nat) (payload : List Nat) (hlen64 : len ≤ 64)
    (hpx : ∀ x ∈ payload, x < 256) : lrcFold (len :: payload) < 256 :=
  lrcFold_lt _ (by
    intro x hx
    rcases List.mem_cons.mp hx with h | h
    · omega
    · exact hpx x h)

/-- C2: Round-trip: for every length in `0..=64` and every payload of exactly
that many bytes, encoding the frame as
`[0x55, 0xAA, length, payload, XOR-fold(length, payload)]`, feeding it to a
fresh decoder and running the read routine's validation yields success and
recovers exactly the original `(length, payload)`; the zero-length frame
`[0x55, 0xAA, 0x00, 0x00]` is the `len = 0` instance (see the witness). -/
theorem C2_roundtrip (len : Nat) (payload : List Nat) (buf : List Nat)
    (hlen64 : len ≤ 64) (hp : payload.length = len) (hpx : ∀ x ∈ payload, x < 256) :
    ∃ g', feedAll OGlove.mkInit (frameBytes len payload (lrcFold (len :: payload)))
        = some g' ∧
      g'.is_whole_packet = true ∧
      g'.packet_data.getD DATA_CNT_BYTE_NUM 0 = len ∧
      g'.get_data_validate (some buf)
        = ({ g' with is_whole_packet := false }, some payload, true) := by
  obtain ⟨g', hfeed, hw, hds, hlen', hpd⟩ := feed_frame_raw OGlove.mkInit len payload
    (lrcFold (len :: payload)) rfl rfl (by simp [OGlove.mkInit]) hlen64 hp hpx
    (frame_chk_lt len payload hlen64 hpx)
  refine ⟨g', hfeed, hw, ?_, ?_⟩
  · rw [hpd]
    exact List.getD_cons_zero
  · rw [validate_match g' len payload (lrcFold (len :: payload))
      (OGlove.mkInit.packet_data.drop (len + 2)) (some buf) hpd hp rfl,
      Option.map_some']

/-- Witness for C2 at the spec's zero-length frame `[0x55, 0xAA, 0x00, 0x00]`. -/
theorem C2_roundtrip_witness :
    ∃ g', feedAll OGlove.mkInit (frameBytes 0 [] (lrcFold (0 :: []))) = some g' ∧
      g'.is_whole_packet = true ∧
      g'.packet_data.getD DATA_CNT_BYTE_NUM 0 = 0 ∧
      g'.get_data_validate (some [9, 9])
        = ({ g' with is_whole_packet := false }, some [], true) :=
  C2_roundtrip 0 [] [9, 9] (by decide) rfl (by simp)

/-- C3: Once the completion flag is set for an assembled frame
`packet_data = len :: payload ++ chk :: rest`, `get_data`'s validation
declares the packet valid iff the stored trailing checksum equals the
XOR-fold of the length byte followed by the payload bytes (the two header
bytes are not stored in `packet_data` and take no part in the computation),
and a failing packet is reported as failure with the caller's buffer left
untouched. -/
theorem C3_checksum_semantics (g : OGlove) (buf : List Nat) (len : Nat)
    (payload : List Nat) (chk : Nat) (R : List Nat)
    (_hw : g.is_whole_packet = true)
    (hpd : g.packet_data = len :: (payload ++ chk :: R))
    (hp : payload.length = len) :
    ((g.get_data_validate (some buf)).2.2 = true ↔ chk = lrcFold (len :: payload)) ∧
    (chk ≠ lrcFold (len :: payload) →
      g.get_data_validate (some buf)
        = ({ g with is_whole_packet := false }, some buf, false)) := by
  by_cases hchk : chk = lrcFold (len :: payload)
  · rw [validate_match g len payload chk R (some buf) hpd hp hchk]
    exact ⟨by simp [hchk], fun hne => absurd hchk hne⟩
  · rw [validate_mismatch g len payload chk R (some buf) hpd hp hchk]
    exact ⟨by simp [hchk], fun _ => rfl⟩

/-- Witness for C3 at the assembled frame `len = 2`, `payload = [1, 2]`,
`chk = 1 = 2 XOR 1 XOR 2`. -/
theorem C3_checksum_semantics_witness :
    (((⟨true, WAIT_ON_HEADER_0, 2 :: ([1, 2] ++ 1 :: List.replicate 62 0), 0⟩ :
          OGlove).get_data_validate (some [7])).2.2 = true
        ↔ (1 : Nat) = lrcFold (2 :: [1, 2])) ∧
    ((1 : Nat) ≠ lrcFold (2 :: [1, 2]) →
      (⟨true, WAIT_ON_HEADER_0, 2 :: ([1, 2] ++ 1 :: List.replicate 62 0), 0⟩ :
          OGlove).get_data_validate (some [7])
        = (⟨false, WAIT_ON_HEADER_0, 2 :: ([1, 2] ++ 1 :: List.replicate 62 0), 0⟩,
            some [7], false)) :=
  C3_checksum_semantics _ [7] 2 [1, 2] 1 (List.replicate 62 0) rfl rfl rfl

/-- C4: Flipping any single bit (position `k < 8`) of the trailing checksum
of an otherwise well-formed frame makes the read fail on that assembled
packet — `run_get_data` returns failure rather than data, the completion
flag is cleared so the decoder is ready for a new packet, the caller's
buffer is untouched, and the result does not depend on the remaining
schedule (no retry within the call). -/
theorem C4_corruption (len : Nat) (payload : List Nat) (k : Nat)
    (resp : Option (List Nat)) (deadline : Nat) (sched : List (List Nat × Nat))
    (hlen64 : len ≤ 64) (hp : payload.length = len) (hpx : ∀ x ∈ payload, x < 256)
    (hk : k < 8) :
    ∃ g', feedAll OGlove.mkInit
        (frameBytes len payload (lrcFold (len :: payload) ^^^ 2 ^ k)) = some g' ∧
      g'.is_whole_packet = true ∧
      g'.run_get_data resp deadline sched
        = some ({ g' with is_whole_packet := false }, resp, false) := by
  have hfold := frame_chk_lt len payload hlen64 hpx
  have hpow : (2 : Nat) ^ k < 256 := by
    calc (2 : Nat) ^ k ≤ 2 ^ 7 := Nat.pow_le_pow_right (by omega) (by omega)
    _ < 256 := by norm_num
  have hbad : lrcFold (len :: payload) ^^^ 2 ^ k < 256 := by
    have h8 : (256 : Nat) = 2 ^ 8 := rfl
    rw [h8] at hfold hpow ⊢
    exact Nat.xor_lt_two_pow hfold hpow
  have hne : lrcFold (len :: payload) ^^^ 2 ^ k ≠ lrcFold (len :: payload) := by
    intro hEq
    have h0 : (lrcFold (len :: payload) ^^^ 2 ^ k) ^^^ lrcFold (len :: payload)
        = lrcFold (len :: payload) ^^^ lrcFold (len :: payload) := by rw [hEq]
    rw [Nat.xor_self, Nat.xor_comm (lrcFold (len :: payload)) (2 ^ k),
      Nat.xor_assoc, Nat.xor_self, Nat.xor_zero] at h0
    have := Nat.two_pow_pos k
    omega
  obtain ⟨g', hfeed, hw, hds, hlen', hpd⟩ := feed_frame_raw OGlove.mkInit len payload
    (lrcFold (len :: payload) ^^^ 2 ^ k) rfl rfl (by simp [OGlove.mkInit]) hlen64 hp
    hpx hbad
  refine ⟨g', hfeed, hw, ?_⟩
  rw [run_get_data_whole g' resp deadline sched hw,
    validate_mismatch g' len payload (lrcFold (len :: payload) ^^^ 2 ^ k)
      (OGlove.mkInit.packet_data.drop (len + 2)) resp hpd hp hne]

/-- Witness for C4: frame `len = 1`, `payload = [3]`, checksum corrupted in
bit 0, read with a pending schedule that is never consulted. -/
theorem C4_corruption_witness :
    ∃ g', feedAll OGlove.mkInit
        (frameBytes 1 [3] (lrcFold (1 :: [3]) ^^^ 2 ^ 0)) = some g' ∧
      g'.is_whole_packet = true ∧
      g'.run_get_data (some [7]) 0 [([250], 5)]
        = some ({ g' with is_whole_packet := false }, some [7], false) :=
  C4_corruption 1 [3] 0 (some [7]) 0 [([250], 5)] (by decide) rfl (by decide)
    (by decide)

/-- C5: If an iteration of the read loop finds the deadline passed while the
completion flag is still unset, the call fails, resetting `decode_state` to
the header-scanning state and discarding partial progress; a subsequent read
call on that reset decoder that receives a complete valid frame succeeds
independently, with no leaked partial state. -/
theorem C5_timeout (g gN : OGlove) (resp : Option (List Nat))
    (deadline now deadline2 now2 : Nat) (bs : List Nat)
    (rest : List (List Nat × Nat)) (len : Nat) (payload : List Nat) (buf : List Nat)
    (hw : g.is_whole_packet = false) (hfeed : feedAll g bs = some gN)
    (hnw : gN.is_whole_packet = false) (hlate : deadline < now)
    (hlenN : gN.packet_data.length = MAX_PROTOCOL_DATA_SIZE + 2)
    (hlen64 : len ≤ 64) (hp : payload.length = len) (hpx : ∀ x ∈ payload, x < 256) :
    g.run_get_data resp deadline ((bs, now) :: rest)
      = some ({ gN with decode_state := WAIT_ON_HEADER_0 }, resp, false) ∧
    ∃ g', OGlove.run_get_data { gN with decode_state := WAIT_ON_HEADER_0 } (some buf)
        deadline2 [(frameBytes len payload (lrcFold (len :: payload)), now2)]
      = some (g', some payload, true) ∧ g'.is_whole_packet = false := by
  constructor
  · rw [run_get_data_step g gN resp deadline now bs rest hw hfeed,
      if_pos ⟨by rw [hnw]; exact Bool.false_ne_true, hlate⟩]
  · obtain ⟨g2, hfeed2, hw2, hds2, hlen2, hpd2⟩ := feed_frame_raw
      { gN with decode_state := WAIT_ON_HEADER_0 } len payload
      (lrcFold (len :: payload)) hnw rfl hlenN hlen64 hp hpx
      (frame_chk_lt len payload hlen64 hpx)
    refine ⟨{ g2 with is_whole_packet := false }, ?_, rfl⟩
    rw [run_get_data_step { gN with decode_state := WAIT_ON_HEADER_0 } g2 (some buf)
        deadline2 now2 (frameBytes len payload (lrcFold (len :: payload))) [] hnw
        hfeed2,
      if_neg (fun hcon => hcon.1 hw2),
      run_get_data_whole g2 (some buf) deadline2 [] hw2,
      validate_match g2 len payload (lrcFold (len :: payload)) _ (some buf) hpd2 hp
        rfl, Option.map_some']

/-- Witness for C5: two header bytes arrive, then the deadline passes;
the next call receives the zero-length frame and succeeds. -/
theorem C5_timeout_witness :
    OGlove.run_get_data OGlove.mkInit none 10 [([0x55, 0xAA], 11)]
      = some ({ (⟨false, WAIT_ON_BYTE_COUNT, List.replicate 66 0, 0⟩ : OGlove) with
          decode_state := WAIT_ON_HEADER_0 }, none, false) ∧
    ∃ g', OGlove.run_get_data
        { (⟨false, WAIT_ON_BYTE_COUNT, List.replicate 66 0, 0⟩ : OGlove) with
          decode_state := WAIT_ON_HEADER_0 } (some [])
        100 [(frameBytes 0 [] (lrcFold (0 :: [])), 50)]
      = some (g', some [], true) ∧ g'.is_whole_packet = false :=
  C5_timeout OGlove.mkInit ⟨false, WAIT_ON_BYTE_COUNT, List.replicate 66 0, 0⟩
    none 10 11 100 50 [0x55, 0xAA] [] 0 [] [] rfl (by decide) rfl (by decide)
    (by decide) (by decide) rfl (by simp)

/-- C6: A length byte exceeding `MAX_PROTOCOL_DATA_SIZE = 64` received in the
byte-count state sends the decoder back to header scanning without ever
setting the completion flag, with no error at the feed boundary (`on_data`
returns normally), and a valid frame fed afterwards on the same decoder
still decodes and validates correctly. -/
theorem C6_oversize (g : OGlove) (n len : Nat) (payload : List Nat) (buf : List Nat)
    (hw : g.is_whole_packet = false) (hs : g.decode_state = WAIT_ON_HEADER_0)
    (hlen : g.packet_data.length = MAX_PROTOCOL_DATA_SIZE + 2)
    (hbig : MAX_PROTOCOL_DATA_SIZE < n) (hn : n < 256)
    (hlen64 : len ≤ 64) (hp : payload.length = len) (hpx : ∀ x ∈ payload, x < 256) :
    ∃ gN, feedAll g [0x55, 0xAA, n] = some gN ∧
      gN.is_whole_packet = false ∧ gN.decode_state = WAIT_ON_HEADER_0 ∧
      ∃ g', feedAll gN (frameBytes len payload (lrcFold (len :: payload))) = some g' ∧
        g'.is_whole_packet = true ∧
        g'.get_data_validate (some buf)
          = ({ g' with is_whole_packet := false }, some payload, true) := by
  have hpos : 0 < g.packet_data.length := by omega
  have hstep1 := on_data_h0_hit g hw hs
  have hstep2 : OGlove.on_data { g with decode_state := WAIT_ON_HEADER_1 } 0xAA
      = some { g with decode_state := WAIT_ON_BYTE_COUNT } := by
    rw [on_data_h1 { g with decode_state := WAIT_ON_HEADER_1 } 0xAA hw rfl, if_pos rfl]
  have hstep3 : OGlove.on_data { g with decode_state := WAIT_ON_BYTE_COUNT } n
      = some { g with
          packet_data := g.packet_data.set 0 n, byte_count := (n : Int),
          decode_state := WAIT_ON_HEADER_0 } := by
    rw [on_data_count { g with decode_state := WAIT_ON_BYTE_COUNT } n hw rfl hn hpos,
      if_pos (show 64 < n from hbig)]
  refine ⟨{ g with
      packet_data := g.packet_data.set 0 n, byte_count := (n : Int),
      decode_state := WAIT_ON_HEADER_0 }, ?_, hw, rfl, ?_⟩
  · rw [feedAll, hstep1, Option.some_bind, feedAll, hstep2, Option.some_bind,
      feedAll, hstep3, Option.some_bind]
    rfl
  · obtain ⟨g', hfeed', hw', hds', hlen', hpd'⟩ := feed_frame_raw
      { g with
        packet_data := g.packet_data.set 0 n, byte_count := (n : Int),
        decode_state := WAIT_ON_HEADER_0 } len payload (lrcFold (len :: payload))
      hw rfl (by rw [List.length_set]; exact hlen) hlen64 hp hpx
      (frame_chk_lt len payload hlen64 hpx)
    refine ⟨g', hfeed', hw', ?_⟩
    rw [validate_match g' len payload (lrcFold (len :: payload)) _ (some buf) hpd' hp
      rfl, Option.map_some']

/-- Witness for C6 at the spec's `LEN = 200` example followed by the
zero-length frame. -/
theorem C6_oversize_witness :
    ∃ gN, feedAll OGlove.mkInit [0x55, 0xAA, 200] = some gN ∧
      gN.is_whole_packet = false ∧ gN.decode_state = WAIT_ON_HEADER_0 ∧
      ∃ g', feedAll gN (frameBytes 0 [] (lrcFold (0 :: []))) = some g' ∧
        g'.is_whole_packet = true ∧
        g'.get_data_validate (some [])
          = ({ g' with is_whole_packet := false }, some [], true) :=
  C6_oversize OGlove.mkInit 200 0 [] [] rfl rfl (by simp [OGlove.mkInit])
    (by decide) (by decide) (by decide) rfl (by simp)

/-- C7: While the completion flag is set, `on_data` drops every byte without
changing any part of the decoder state: flag, decode state, working buffer
and remaining-byte counter are all unchanged. -/
theorem C7_drop_when_whole (g : OGlove) (b : Nat) (hw : g.is_whole_packet = true) :
    g.on_data b = some g :=
  on_data_whole g b hw

/-- Witness for C7 at a pending-packet decoder and the byte `0xFF`. -/
theorem C7_drop_when_whole_witness :
    OGlove.on_data ⟨true, WAIT_ON_HEADER_0, List.replicate 66 0, 0⟩ 255
      = some ⟨true, WAIT_ON_HEADER_0, List.replicate 66 0, 0⟩ :=
  C7_drop_when_whole ⟨true, WAIT_ON_HEADER_0, List.replicate 66 0, 0⟩ 255 rfl

/-- C8: For every reachable decoder state and every byte `0..255`,
`on_data` terminates normally (`some`, never the `none` that models a Python
exception); in particular every `packet_data` write stays inside the
66-slot buffer and every stored value is a byte. -/
theorem C8_on_data_total (g : OGlove) (b : Nat) (hg : Reachable g) (hb : b < 256) :
    ∃ gN, g.on_data b = some gN := by
  obtain ⟨gN, hstep, _⟩ := on_data_inv g b hb (Reachable_inv g hg)
  exact ⟨gN, hstep⟩

/-- Witness for C8 at the fresh decoder and the byte `0x55`. -/
theorem C8_on_data_total_witness : ∃ gN, OGlove.mkInit.on_data 0x55 = some gN :=
  C8_on_data_total OGlove.mkInit 0x55 ⟨[], by simp, rfl⟩ (by decide)

/-- C9: Every reachable decoder state has `decode_state` among the five named
states; in `WAIT_ON_DATA` the counters satisfy
`1 ≤ byte_count ≤ packet_data[0] ≤ 64`, so the payload write position
`DATA_START_BYTE_NUM + packet_data[0] - byte_count` lies in `1..64`, and in
`WAIT_ON_LRC` the checksum write position `packet_data[0] + 1` lies in
`1..65`. -/
theorem C9_reachable_invariant (g : OGlove) (hg : Reachable g) :
    (g.decode_state = WAIT_ON_HEADER_0 ∨ g.decode_state = WAIT_ON_HEADER_1 ∨
      g.decode_state = WAIT_ON_BYTE_COUNT ∨ g.decode_state = WAIT_ON_DATA ∨
      g.decode_state = WAIT_ON_LRC) ∧
    (g.decode_state = WAIT_ON_DATA →
      1 ≤ g.byte_count ∧ g.byte_count ≤ (g.packet_data.getD 0 0 : Int) ∧
      g.packet_data.getD 0 0 ≤ 64 ∧
      1 ≤ (DATA_START_BYTE_NUM : Int) + (g.packet_data.getD 0 0 : Int) - g.byte_count ∧
      (DATA_START_BYTE_NUM : Int) + (g.packet_data.getD 0 0 : Int) - g.byte_count
        ≤ 64) ∧
    (g.decode_state = WAIT_ON_LRC →
      1 ≤ g.packet_data.getD 0 0 + 1 ∧ g.packet_data.getD 0 0 + 1 ≤ 65) := by
  obtain ⟨hlen, hst, hdata, hlrc⟩ := Reachable_inv g hg
  refine ⟨?_, fun h => ?_, fun h => ?_⟩
  · unfold WAIT_ON_HEADER_0 WAIT_ON_HEADER_1 WAIT_ON_BYTE_COUNT WAIT_ON_DATA
      WAIT_ON_LRC
    omega
  · obtain ⟨h1, h2, h3⟩ := hdata h
    refine ⟨h1, h2, h3, ?_, ?_⟩
    · show (1 : Int) ≤ 1 + (g.packet_data.getD 0 0 : Int) - g.byte_count
      omega
    · show (1 : Int) + (g.packet_data.getD 0 0 : Int) - g.byte_count ≤ 64
      omega
  · have h3 := hlrc h
    omega

/-- Witness for C9 at the fresh decoder. -/
theorem C9_reachable_invariant_witness :
    (OGlove.mkInit.decode_state = WAIT_ON_HEADER_0 ∨
      OGlove.mkInit.decode_state = WAIT_ON_HEADER_1 ∨
      OGlove.mkInit.decode_state = WAIT_ON_BYTE_COUNT ∨
      OGlove.mkInit.decode_state = WAIT_ON_DATA ∨
      OGlove.mkInit.decode_state = WAIT_ON_LRC) ∧
    (OGlove.mkInit.decode_state = WAIT_ON_DATA →
      1 ≤ OGlove.mkInit.byte_count ∧
      OGlove.mkInit.byte_count ≤ (OGlove.mkInit.packet_data.getD 0 0 : Int) ∧
      OGlove.mkInit.packet_data.getD 0 0 ≤ 64 ∧
      1 ≤ (DATA_START_BYTE_NUM : Int) + (OGlove.mkInit.packet_data.getD 0 0 : Int)
          - OGlove.mkInit.byte_count ∧
      (DATA_START_BYTE_NUM : Int) + (OGlove.mkInit.packet_data.getD 0 0 : Int)
          - OGlove.mkInit.byte_count ≤ 64) ∧
    (OGlove.mkInit.decode_state = WAIT_ON_LRC →
      1 ≤ OGlove.mkInit.packet_data.getD 0 0 + 1 ∧
      OGlove.mkInit.packet_data.getD 0 0 + 1 ≤ 65) :=
  C9_reachable_invariant OGlove.mkInit ⟨[], by simp, rfl⟩

/-- C10: On a stream containing a complete checksum-valid frame, a read with
`resp_bytes = None` still consumes and validates the packet, clears the
completion flag and returns success without copying any payload, while a
read with a caller buffer succeeds with the buffer holding exactly the
decoded payload regardless of its prior contents — and both reads leave the
decoder in the same state. -/
theorem C10_resp_buffer (g : OGlove) (len : Nat) (payload : List Nat)
    (buf : List Nat) (deadline now : Nat) (rest : List (List Nat × Nat))
    (hw : g.is_whole_packet = false) (hs : g.decode_state = WAIT_ON_HEADER_0)
    (hlen : g.packet_data.length = MAX_PROTOCOL_DATA_SIZE + 2)
    (hlen64 : len ≤ 64) (hp : payload.length = len) (hpx : ∀ x ∈ payload, x < 256) :
    ∃ g', g.run_get_data none deadline
        ((frameBytes len payload (lrcFold (len :: payload)), now) :: rest)
      = some (g', none, true) ∧
      g'.is_whole_packet = false ∧
      g.run_get_data (some buf) deadline
        ((frameBytes len payload (lrcFold (len :: payload)), now) :: rest)
      = some (g', some payload, true) := by
  obtain ⟨g2, hfeed2, hw2, hds2, hlen2, hpd2⟩ := feed_frame_raw g len payload
    (lrcFold (len :: payload)) hw hs hlen hlen64 hp hpx
    (frame_chk_lt len payload hlen64 hpx)
  refine ⟨{ g2 with is_whole_packet := false }, ?_, rfl, ?_⟩
  · rw [run_get_data_step g g2 none deadline now _ rest hw hfeed2,
      if_neg (fun hcon => hcon.1 hw2),
      run_get_data_whole g2 none deadline rest hw2,
      validate_match g2 len payload (lrcFold (len :: payload)) _ none hpd2 hp rfl]
    rfl
  · rw [run_get_data_step g g2 (some buf) deadline now _ rest hw hfeed2,
      if_neg (fun hcon => hcon.1 hw2),
      run_get_data_whole g2 (some buf) deadline rest hw2,
      validate_match g2 len payload (lrcFold (len :: payload)) _ (some buf) hpd2 hp
        rfl, Option.map_some']

/-- Witness for C10: frame `len = 1`, `payload = [7]`, a `None` read and a
read into a dirty buffer `[1, 2, 3]`. -/
theorem C10_resp_buffer_witness :
    ∃ g', OGlove.run_get_data OGlove.mkInit none 5
        [(frameBytes 1 [7] (lrcFold (1 :: [7])), 3)]
      = some (g', none, true) ∧
      g'.is_whole_packet = false ∧
      OGlove.run_get_data OGlove.mkInit (some [1, 2, 3]) 5
        [(frameBytes 1 [7] (lrcFold (1 :: [7])), 3)]
      = some (g', some [7], true) :=
  C10_resp_buffer OGlove.mkInit 1 [7] [1, 2, 3] 5 3 [] rfl rfl
    (by simp [OGlove.mkInit]) (by decide) rfl (by decide)

end GForce
